import Mathlib

/-!
# Verification of the DCA portfolio accounting engine

A shallow embedding of the accounting core of `portfolio_dca.py`
(class `AnalysisEngine`, plus the record-loading filter of `DataManager`),
with proofs of the specified properties.

Modelling conventions:
* Timestamps (`Data` strings, sorted lexicographically and hence
  chronologically) are modelled as naturals — any linearly ordered sortable
  key is equivalent for the engine.
* Monetary and quantity values (Python `Decimal`/`float`) are modelled as
  rationals `ℚ`; the engine accumulates in `Decimal` and only converts at the
  boundary.
* Python's stable `sorted(..., key=lambda x: x['Data'])` is modelled with
  `List.insertionSort` on the timestamp key, which is likewise stable.
* The loader's per-row validation (`carregar_operacoes`) is modelled over raw
  string records, with a parser for the numeric grammar accepted by Python's
  `float`/`Decimal` constructors (sign, digits, optional fraction dot).
-/

namespace PortfolioDCA

/-- Operation kind; the loader only lets `'compra'` (buy) and `'venda'`
(sell) through, so validated records carry exactly these two. -/
inductive Operacao where
  | compra
  | venda
deriving DecidableEq, Repr

/-- A validated transaction record, after `DataManager.carregar_operacoes`:
fields `Data`, `Moeda`, `Operacao`, `Valor_USDT`, `Preco`, `Quantidade`. -/
structure Op where
  data : ℕ
  moeda : String
  operacao : Operacao
  valor_usdt : ℚ
  preco : ℚ
  quantidade : ℚ
deriving DecidableEq, Repr

/-- The sort key relation used throughout the engine:
`sorted(operacoes, key=lambda x: x['Data'])`. -/
def opLe (a b : Op) : Prop := a.data ≤ b.data

instance : DecidableRel opLe := fun a b => Nat.decLe a.data b.data

instance : IsTotal Op opLe := ⟨fun a b => Nat.le_total a.data b.data⟩

instance : IsTrans Op opLe := ⟨fun _ _ _ => Nat.le_trans⟩

/-- Strict comparison of the sort keys. -/
def opLt (a b : Op) : Prop := a.data < b.data

instance : IsAntisymm Op opLt :=
  ⟨fun _ _ h h' => absurd (Nat.lt_trans h h') (Nat.lt_irrefl _)⟩

/-- `sorted(operacoes, key=lambda x: x['Data'])` — a stable sort by
timestamp. -/
def sortOps (ops : List Op) : List Op := List.insertionSort opLe ops

/-! ## Ledger Replayer: `AnalysisEngine.calcular_saldo_usdt` -/

/-- The `tipo` tag of a cash-history entry. -/
inductive MovTipo where
  | deposito_usdt
  | saque_usdt
  | compra_crypto
  | venda_crypto
deriving DecidableEq, Repr

/-- One entry of `historico_movimentacao`.  The `moeda` field is present only
on crypto movements (the Python dict has no `'moeda'` key on USDT entries);
the display-only `descricao` string is not modelled. -/
structure Mov where
  data : ℕ
  tipo : MovTipo
  moeda : Option String
  valor : ℚ
  saldo_apos : ℚ
deriving DecidableEq, Repr

/-- The running state of the ledger fold: balance and history so far. -/
structure SaldoState where
  saldo : ℚ
  historico : List Mov
deriving DecidableEq, Repr

/-- One iteration of the loop body of `calcular_saldo_usdt`. -/
def saldoStep (s : SaldoState) (op : Op) : SaldoState :=
  if op.moeda = "USDT" then
    match op.operacao with
    | .compra =>
        let novo := s.saldo + op.valor_usdt
        ⟨novo, s.historico ++ [⟨op.data, .deposito_usdt, none, op.valor_usdt, novo⟩]⟩
    | .venda =>
        let novo := s.saldo - op.valor_usdt
        ⟨novo, s.historico ++ [⟨op.data, .saque_usdt, none, op.valor_usdt, novo⟩]⟩
  else
    match op.operacao with
    | .compra =>
        let novo := s.saldo - op.valor_usdt
        ⟨novo, s.historico ++ [⟨op.data, .compra_crypto, some op.moeda, op.valor_usdt, novo⟩]⟩
    | .venda =>
        let novo := s.saldo + op.valor_usdt
        ⟨novo, s.historico ++ [⟨op.data, .venda_crypto, some op.moeda, op.valor_usdt, novo⟩]⟩

/-- The return value of `calcular_saldo_usdt`. -/
structure SaldoInfo where
  saldo_atual : ℚ
  historico : List Mov
deriving DecidableEq, Repr

/-- `AnalysisEngine.calcular_saldo_usdt`: replay the transactions in
timestamp order from balance 0. -/
def calcular_saldo_usdt (ops : List Op) : SaldoInfo :=
  let s := (sortOps ops).foldl saldoStep ⟨0, []⟩
  ⟨s.saldo, s.historico⟩

/-! ## Position Accountant: `AnalysisEngine._analisar_moeda` -/

/-- One entry of `operacoes_processadas`: a buy (with the weighted-average
cost after it), a rejected sell (the `'erro': 'Venda sem posição prévia'`
entry), or an executed sell (with its realized profit). -/
inductive ProcOp where
  | compra (data : ℕ) (quantidade preco valor pmc_apos : ℚ)
  | venda_erro (data : ℕ) (quantidade preco valor : ℚ)
  | venda (data : ℕ) (quantidade preco valor lucro : ℚ)
deriving DecidableEq, Repr

/-- The running state of the position fold: cost basis `custo_total`,
quantity `quantidade_total`, realized profit `lucro_realizado`, weighted
average cost `pmc`, and processed-operations list. -/
structure AnaState where
  custo_total : ℚ
  quantidade_total : ℚ
  lucro_realizado : ℚ
  pmc : ℚ
  operacoes_processadas : List ProcOp
deriving DecidableEq, Repr

/-- The initial state of `_analisar_moeda`'s loop. -/
def anaInit : AnaState := ⟨0, 0, 0, 0, []⟩

/-- One iteration of the loop body of `_analisar_moeda`. -/
def anaStep (s : AnaState) (op : Op) : AnaState :=
  match op.operacao with
  | .compra =>
      let custo := s.custo_total + op.valor_usdt
      let qtd := s.quantidade_total + op.quantidade
      let pmc := if 0 < qtd then custo / qtd else 0
      ⟨custo, qtd, s.lucro_realizado, pmc,
        s.operacoes_processadas ++ [.compra op.data op.quantidade op.preco op.valor_usdt pmc]⟩
  | .venda =>
      if s.quantidade_total ≤ 0 ∨ s.pmc ≤ 0 then
        { s with operacoes_processadas :=
            s.operacoes_processadas ++ [.venda_erro op.data op.quantidade op.preco op.valor_usdt] }
      else
        let custo_da_venda := op.quantidade * s.pmc
        let lucro_venda := op.valor_usdt - custo_da_venda
        ⟨s.custo_total - custo_da_venda, s.quantidade_total - op.quantidade,
          s.lucro_realizado + lucro_venda, s.pmc,
          s.operacoes_processadas ++
            [.venda op.data op.quantidade op.preco op.valor_usdt lucro_venda]⟩

/-- The snapshot dict returned by `_analisar_moeda`. -/
structure Analise where
  operacoes : List ProcOp
  quantidade_final : ℚ
  pmc_final : ℚ
  custo_posicao_final : ℚ
  valor_atual_posicao : ℚ
  lucro_realizado : ℚ
  lucro_nao_realizado : ℚ
  lucro_total : ℚ
  preco_de_mercado : ℚ
deriving DecidableEq, Repr

/-- The quantity dust threshold `Decimal('1e-9')` / `1e-9`. -/
def dustQtd : ℚ := 1 / 1000000000

/-- `AnalysisEngine._analisar_moeda`: fold the asset's transactions and build
the snapshot. -/
def analisar_moeda (ops : List Op) (preco_atual : ℚ) : Analise :=
  let s := ops.foldl anaStep anaInit
  let qtd_final := s.quantidade_total
  let custo_final := if dustQtd < s.quantidade_total then s.custo_total else 0
  let valor_atual := if 0 < preco_atual then qtd_final * preco_atual else 0
  let lucro_nao_realizado := if dustQtd < qtd_final then valor_atual - custo_final else 0
  ⟨s.operacoes_processadas, qtd_final, s.pmc, custo_final, valor_atual,
    s.lucro_realizado, lucro_nao_realizado, s.lucro_realizado + lucro_nao_realizado,
    preco_atual⟩

/-! ## Portfolio Aggregator: grouping, `calcular_portfolio`,
`calcular_distribuicao_portfolio` -/

/-- The assets appearing in the grouping loop
`for op in sorted(operacoes, ...): if op['Moeda'] == 'USDT': continue`,
in first-occurrence order (the iteration order of the `defaultdict`). -/
def assetOrder (ops : List Op) : List String :=
  (sortOps ops).foldl
    (fun acc op => if op.moeda = "USDT" ∨ op.moeda ∈ acc then acc else acc ++ [op.moeda]) []

/-- The per-asset transaction group `ops_por_moeda[m]`: the non-USDT
transactions for asset `m`, in timestamp order. -/
def opsFor (m : String) (ops : List Op) : List Op :=
  (sortOps ops).filter (fun op => op.moeda = m)

/-- The `totais` dict of `calcular_portfolio`. -/
structure Totais where
  investido_liquido : ℚ
  realizado : ℚ
  nao_realizado : ℚ
  valor_atual : ℚ
deriving DecidableEq, Repr

/-- The result of `calcular_portfolio`: included per-asset snapshots in
iteration order, the synthetic `'USDT (Caixa)'` entry when the cash balance
exceeds the dust threshold, and the totals. -/
structure Portfolio where
  posicoes : List (String × Analise)
  caixa : Option ℚ
  totais : Totais
deriving DecidableEq, Repr

/-- `AnalysisEngine.calcular_portfolio`; `none` models the `{}` returned for
an empty transaction list.  Prices are looked up with
`precos_atuais.get(moeda, 0)`. -/
def calcular_portfolio (ops : List Op) (precos : String → Option ℚ) : Option Portfolio :=
  if ops = [] then none
  else
    let saldo := (calcular_saldo_usdt ops).saldo_atual
    let pass := (assetOrder ops).foldl
      (fun (acc : List (String × Analise) × Totais) m =>
        let a := analisar_moeda (opsFor m ops) ((precos m).getD 0)
        if 1/100 < a.valor_atual_posicao ∨ 1/100 < |a.lucro_realizado| then
          (acc.1 ++ [(m, a)],
           ⟨acc.2.investido_liquido + a.custo_posicao_final,
            acc.2.realizado + a.lucro_realizado,
            acc.2.nao_realizado + a.lucro_nao_realizado,
            acc.2.valor_atual + a.valor_atual_posicao⟩)
        else acc)
      ([], ⟨0, 0, 0, 0⟩)
    some ⟨pass.1, if 1/100 < saldo then some saldo else none,
      { pass.2 with valor_atual := pass.2.valor_atual + saldo }⟩

/-- One value of the `distribuicao` dict (after the percentage pass). -/
structure DistEntry where
  valor_atual : ℚ
  quantidade : ℚ
  percentual : ℚ
deriving DecidableEq, Repr

/-- The result of `calcular_distribuicao_portfolio`. -/
structure Distribuicao where
  distribuicao : List (String × DistEntry)
  total_investido : ℚ
deriving DecidableEq, Repr

/-- The first loop of `calcular_distribuicao_portfolio`: the included crypto
entries `(moeda, valor_atual, quantidade)` in iteration order, and
`total_valor_crypto`. -/
def cryptoPass (ops : List Op) (precos : String → Option ℚ) :
    List (String × ℚ × ℚ) × ℚ :=
  (assetOrder ops).foldl
    (fun (acc : List (String × ℚ × ℚ) × ℚ) m =>
      let a := analisar_moeda (opsFor m ops) ((precos m).getD 0)
      if 1/100 < a.valor_atual_posicao then
        (acc.1 ++ [(m, a.valor_atual_posicao, a.quantidade_final)],
         acc.2 + a.valor_atual_posicao)
      else acc)
    ([], 0)

/-- `AnalysisEngine.calcular_distribuicao_portfolio`. -/
def calcular_distribuicao_portfolio (ops : List Op) (precos : String → Option ℚ) :
    Distribuicao :=
  if ops = [] then ⟨[], 0⟩
  else
    let saldo := (calcular_saldo_usdt ops).saldo_atual
    let pass := cryptoPass ops precos
    let valor_total := pass.2 + saldo
    let entries := pass.1 ++ (if 1/100 < saldo then [("USDT", saldo, saldo)] else [])
    ⟨entries.map (fun e =>
        (e.1, ⟨e.2.1, e.2.2, if 0 < valor_total then e.2.1 / valor_total * 100 else 0⟩)),
      pass.2⟩

/-- The denominator `valor_total_portfolio = total_valor_crypto + saldo_usdt`
used for the percentages. -/
def portfolioTotal (ops : List Op) (precos : String → Option ℚ) : ℚ :=
  (cryptoPass ops precos).2 + (calcular_saldo_usdt ops).saldo_atual

/-! ## The record loader: `DataManager.carregar_operacoes`

The loader reads raw CSV rows (string fields; a missing cell and an empty
cell are rejected alike by `if campo not in linha or not linha[campo]`) and
keeps a row only if the five required fields `Data`, `Moeda`, `Operacao`,
`Quantidade`, `Valor_USDT` are present and non-empty, `Quantidade` and
`Valor_USDT` parse as numbers, and the lowered `Operacao` is `compra` or
`venda`.  `Preco` is not checked. -/

/-- A raw CSV row as `csv.DictReader` hands it to the loader; a missing field
is modelled as the empty string (both are rejected the same way). -/
structure RawRecord where
  Data : String
  Moeda : String
  Operacao : String
  Valor_USDT : String
  Preco : String
  Quantidade : String
deriving DecidableEq, Repr

/-- Decimal digit test for the numeric grammar of Python's
`float`/`Decimal` constructors. -/
def isDigitCh (c : Char) : Bool := '0' ≤ c && c ≤ '9'

/-- Value of a digit character. -/
def digitVal (c : Char) : ℕ := c.toNat - '0'.toNat

/-- Digits to a natural number, most significant first. -/
def digitsToNat (cs : List Char) : ℕ := cs.foldl (fun acc c => 10 * acc + digitVal c) 0

/-- Parse an unsigned numeral: digits with an optional single fraction dot,
at least one digit overall (`"1"`, `"1.5"`, `"1."`, `".5"`; not `""`,
`"."`, `"a"`). -/
def parseUnsigned (cs : List Char) : Option ℚ :=
  let p := cs.span (fun c => c ≠ '.')
  match p.2 with
  | [] => if cs ≠ [] ∧ cs.all isDigitCh then some (digitsToNat cs) else none
  | _ :: f =>
      if (p.1 ≠ [] ∨ f ≠ []) ∧ p.1.all isDigitCh ∧ f.all isDigitCh then
        some ((digitsToNat (p.1 ++ f) : ℚ) / 10 ^ f.length)
      else none

/-- The numeric strings accepted by Python's `float(s)` / `Decimal(s)`:
an optional sign followed by an unsigned numeral.  (Python also strips
whitespace and accepts exponents; the engine's inputs never use those and
the loader's behaviour on them is not at issue here.) -/
def parseNum (s : String) : Option ℚ :=
  match s.data with
  | '-' :: rest => (parseUnsigned rest).map Neg.neg
  | '+' :: rest => parseUnsigned rest
  | cs => parseUnsigned cs

/-- ASCII lower-casing of one character, as Python's `str.lower()` acts on
the field values at hand. -/
def lowerCh (c : Char) : Char :=
  if 'A' ≤ c ∧ c ≤ 'Z' then Char.ofNat (c.toNat + 32) else c

/-- Python's `s.lower()` on a string. -/
def lowerStr (s : String) : String := ⟨s.data.map lowerCh⟩

/-- The per-row validation of `carregar_operacoes`: required fields present
and non-empty, `Quantidade` and `Valor_USDT` numeric, `Operacao` (lowered)
one of `compra` / `venda`.  `Preco` is not validated. -/
def validRow (r : RawRecord) : Bool :=
  r.Data != "" && r.Moeda != "" && r.Operacao != "" && r.Quantidade != "" &&
  r.Valor_USDT != "" &&
  (parseNum r.Quantidade).isSome && (parseNum r.Valor_USDT).isSome &&
  (lowerStr r.Operacao == "compra" || lowerStr r.Operacao == "venda")

/-- `DataManager.carregar_operacoes` on the rows of the CSV file: invalid
rows are dropped, the rest pass through in order. -/
def carregar_operacoes (rows : List RawRecord) : List RawRecord :=
  rows.filter validRow

/-! ## Derived notions used to state the claims -/

/-- Signed effect of one transaction on the reference-currency balance. -/
def opDelta (op : Op) : ℚ :=
  if op.moeda = "USDT" then
    match op.operacao with
    | .compra => op.valor_usdt
    | .venda => -op.valor_usdt
  else
    match op.operacao with
    | .compra => -op.valor_usdt
    | .venda => op.valor_usdt

/-- Sum of the signed effects of a transaction list. -/
def opDeltaSum (ops : List Op) : ℚ := (ops.map opDelta).sum

/-- The Ledger Replayer's per-transaction rule as the specification words it:
reference-currency BUY is a deposit (balance `+= amount`), reference-currency
SELL a withdrawal (`-=`), crypto BUY a buy-debit tagged with the asset
(`-=`), crypto SELL a sell-credit tagged with the asset (`+=`); the entry
records the resulting balance and the balance is never clamped. -/
def ledgerRuleSpec (s : SaldoState) (op : Op) : SaldoState :=
  if op.moeda = "USDT" ∧ op.operacao = .compra then
    ⟨s.saldo + op.valor_usdt,
      s.historico ++ [⟨op.data, .deposito_usdt, none, op.valor_usdt, s.saldo + op.valor_usdt⟩]⟩
  else if op.moeda = "USDT" ∧ op.operacao = .venda then
    ⟨s.saldo - op.valor_usdt,
      s.historico ++ [⟨op.data, .saque_usdt, none, op.valor_usdt, s.saldo - op.valor_usdt⟩]⟩
  else if op.operacao = .compra then
    ⟨s.saldo - op.valor_usdt,
      s.historico ++
        [⟨op.data, .compra_crypto, some op.moeda, op.valor_usdt, s.saldo - op.valor_usdt⟩]⟩
  else
    ⟨s.saldo + op.valor_usdt,
      s.historico ++
        [⟨op.data, .venda_crypto, some op.moeda, op.valor_usdt, s.saldo + op.valor_usdt⟩]⟩

/-- Signed effect of one history entry on the balance: deposits and
sell-credits add their magnitude, withdrawals and buy-debits subtract it. -/
def movDelta (m : Mov) : ℚ :=
  match m.tipo with
  | .deposito_usdt => m.valor
  | .venda_crypto => m.valor
  | .saque_usdt => -m.valor
  | .compra_crypto => -m.valor

/-- The history is internally consistent from a given prior balance: each
entry's recorded `saldo_apos` is the prior balance adjusted by the entry's
signed magnitude. -/
def histConsistente (prev : ℚ) : List Mov → Prop
  | [] => True
  | m :: rest => m.saldo_apos = prev + movDelta m ∧ histConsistente m.saldo_apos rest

/-- The `saldo_apos` of the last history entry, or the given balance when the
history is empty. -/
def lastFrom (prev : ℚ) : List Mov → ℚ
  | [] => prev
  | m :: rest => lastFrom m.saldo_apos rest

/-- No sell in the list exceeds the position it meets: whenever a sell
arrives at a state that would execute it (positive quantity and positive
average cost), its quantity is at most the quantity held. -/
def noOversell (s : AnaState) : List Op → Prop
  | [] => True
  | op :: rest =>
      (op.operacao = .venda → 0 < s.quantidade_total → 0 < s.pmc →
        op.quantidade ≤ s.quantidade_total) ∧ noOversell (anaStep s op) rest

/-! ## Concrete inputs used in the claim theorems -/

/-- Scenario A of the spec: deposit 1000 USDT, buy 0.01 BTC for 500,
sell 0.01 BTC for 600. -/
def opsScenarioA : List Op :=
  [⟨1, "USDT", .compra, 1000, 1, 1000⟩,
   ⟨2, "BTC", .compra, 500, 50000, 1/100⟩,
   ⟨3, "BTC", .venda, 600, 60000, 1/100⟩]

/-- Scenario C's position: one buy of 2 ETH for 1000 USDT. -/
def opsEth : List Op := [⟨0, "ETH", .compra, 1000, 500, 2⟩]

/-- A price source with no entry for any asset. -/
def noPrecos : String → Option ℚ := fun _ => none

/-- An oversell: buy 1 BTC for 100, then sell 5 BTC for 500. -/
def opsOversell : List Op :=
  [⟨0, "BTC", .compra, 100, 100, 1⟩, ⟨1, "BTC", .venda, 500, 100, 5⟩]

/-- Two transactions with the same timestamp: buy then sell. -/
def opsTieBuySell : List Op :=
  [⟨5, "BTC", .compra, 500, 50000, 1/100⟩, ⟨5, "BTC", .venda, 600, 60000, 1/100⟩]

/-- The same two transactions in the other input order. -/
def opsTieSellBuy : List Op :=
  [⟨5, "BTC", .venda, 600, 60000, 1/100⟩, ⟨5, "BTC", .compra, 500, 50000, 1/100⟩]

/-- A crypto buy with no prior deposit: the cash balance ends at −50. -/
def opsNegCash : List Op := [⟨0, "BTC", .compra, 50, 50, 1⟩]

/-- A price map holding only BTC ↦ 100. -/
def precosBtc100 : String → Option ℚ := fun m => if m = "BTC" then some 100 else none

/-- A loaded row whose `Preco` cell is empty: every required field is valid,
so the loader keeps it, yet `Decimal(str(op['Preco']))` in
`_analisar_moeda` has no number to parse. -/
def badPrecoRow : RawRecord :=
  ⟨"2024-01-01 10:00:00", "BTC", "compra", "100", "", "1"⟩

/-- Scenario B of the spec: two buys of 0.01 BTC for 300 USDT each. -/
def opsScenarioB : List Op :=
  [⟨0, "BTC", .compra, 300, 30000, 1/100⟩, ⟨1, "BTC", .compra, 300, 30000, 1/100⟩]

/-- A buy of 1 BTC for 100 followed by a full sell for 150, at distinct
timestamps. -/
def opsBuySell : List Op :=
  [⟨1, "BTC", .compra, 100, 100, 1⟩, ⟨2, "BTC", .venda, 150, 150, 1⟩]

/-- The same two transactions in the other input order. -/
def opsSellBuy : List Op :=
  [⟨2, "BTC", .venda, 150, 150, 1⟩, ⟨1, "BTC", .compra, 100, 100, 1⟩]

/-- A single deposit of 1000 USDT. -/
def opsDeposit : List Op := [⟨0, "USDT", .compra, 1000, 1, 1000⟩]

end PortfolioDCA

namespace PortfolioDCA

/-! # Helper lemmas -/

theorem sortOps_perm (ops : List Op) : (sortOps ops).Perm ops :=
  List.perm_insertionSort opLe ops

theorem sortOps_sorted (ops : List Op) : (sortOps ops).Sorted opLe :=
  List.sorted_insertionSort opLe ops

theorem saldoStep_mk (s : SaldoState) (op : Op) :
    ∃ e : Mov, saldoStep s op = ⟨s.saldo + opDelta op, s.historico ++ [e]⟩ ∧
      e.saldo_apos = s.saldo + opDelta op ∧ movDelta e = opDelta op := by
  by_cases h : op.moeda = "USDT" <;> rcases ho : op.operacao
  · exact ⟨⟨op.data, .deposito_usdt, none, op.valor_usdt, s.saldo + op.valor_usdt⟩,
      by simp [saldoStep, h, ho, opDelta], by simp [opDelta, h, ho],
      by simp [movDelta, opDelta, h, ho]⟩
  · exact ⟨⟨op.data, .saque_usdt, none, op.valor_usdt, s.saldo - op.valor_usdt⟩,
      by simp [saldoStep, h, ho, opDelta, sub_eq_add_neg],
      by simp [opDelta, h, ho, sub_eq_add_neg],
      by simp [movDelta, opDelta, h, ho]⟩
  · exact ⟨⟨op.data, .compra_crypto, some op.moeda, op.valor_usdt, s.saldo - op.valor_usdt⟩,
      by simp [saldoStep, h, ho, opDelta, sub_eq_add_neg],
      by simp [opDelta, h, ho, sub_eq_add_neg],
      by simp [movDelta, opDelta, h, ho]⟩
  · exact ⟨⟨op.data, .venda_crypto, some op.moeda, op.valor_usdt, s.saldo + op.valor_usdt⟩,
      by simp [saldoStep, h, ho, opDelta], by simp [opDelta, h, ho],
      by simp [movDelta, opDelta, h, ho]⟩

theorem foldl_saldoStep_saldo :
    ∀ (l : List Op) (s : SaldoState), (l.foldl saldoStep s).saldo = s.saldo + opDeltaSum l
  | [], s => by simp [opDeltaSum]
  | op :: l, s => by
    obtain ⟨e, he, -, -⟩ := saldoStep_mk s op
    simp only [List.foldl_cons, foldl_saldoStep_saldo l, he, opDeltaSum, List.map_cons,
      List.sum_cons]
    ring

theorem opDeltaSum_of_perm {l l' : List Op} (h : l.Perm l') : opDeltaSum l = opDeltaSum l' :=
  (h.map opDelta).sum_eq

theorem sortOps_eq_of_perm {ops ops' : List Op} (h : ops.Perm ops')
    (hnd : (ops.map Op.data).Nodup) : sortOps ops = sortOps ops' := by
  have key : ∀ l : List Op, (l.map Op.data).Nodup → (sortOps l).Sorted opLt := by
    intro l hl
    have hperm : ((sortOps l).map Op.data).Perm (l.map Op.data) := (sortOps_perm l).map _
    have hnd' : ((sortOps l).map Op.data).Nodup := hperm.nodup_iff.mpr hl
    have hne : (sortOps l).Pairwise (fun a b : Op => a.data ≠ b.data) :=
      List.pairwise_map.mp hnd'
    exact ((sortOps_sorted l).and hne).imp (fun hab => lt_of_le_of_ne hab.1 hab.2)
  have hnd' : (ops'.map Op.data).Nodup := (h.map Op.data).nodup_iff.mp hnd
  exact List.eq_of_perm_of_sorted
    (((sortOps_perm ops).trans h).trans (sortOps_perm ops').symm)
    (key ops hnd) (key ops' hnd')

theorem lastFrom_append (p : ℚ) (h : List Mov) (m : Mov) :
    lastFrom p (h ++ [m]) = m.saldo_apos := by
  induction h generalizing p with
  | nil => rfl
  | cons x t ih => simpa [lastFrom] using ih x.saldo_apos

theorem histConsistente_append (p : ℚ) (h : List Mov) (m : Mov) :
    histConsistente p (h ++ [m]) ↔
      histConsistente p h ∧ m.saldo_apos = lastFrom p h + movDelta m := by
  induction h generalizing p with
  | nil => simp [histConsistente, lastFrom]
  | cons x t ih => simp [histConsistente, lastFrom, ih, and_assoc]

theorem foldl_saldoStep_consistente :
    ∀ (l : List Op) (s : SaldoState), histConsistente 0 s.historico →
      s.saldo = lastFrom 0 s.historico →
      histConsistente 0 (l.foldl saldoStep s).historico ∧
        (l.foldl saldoStep s).saldo = lastFrom 0 (l.foldl saldoStep s).historico
  | [], _, hc, hs => ⟨hc, hs⟩
  | op :: l, s, hc, hs => by
    obtain ⟨e, he, heq, hdelta⟩ := saldoStep_mk s op
    rw [List.foldl_cons, he]
    refine foldl_saldoStep_consistente l _ ?_ ?_
    · exact (histConsistente_append 0 s.historico e).mpr ⟨hc, by rw [heq, hdelta, hs]⟩
    · simp [lastFrom_append, heq]

theorem foldl_anaStep_flat :
    ∀ (l : List Op) (s : AnaState), (∀ op ∈ l, op.operacao = .venda) →
      s.quantidade_total ≤ 0 →
      (l.foldl anaStep s).custo_total = s.custo_total ∧
        (l.foldl anaStep s).quantidade_total = s.quantidade_total ∧
        (l.foldl anaStep s).lucro_realizado = s.lucro_realizado ∧
        (l.foldl anaStep s).pmc = s.pmc
  | [], _, _, _ => ⟨rfl, rfl, rfl, rfl⟩
  | op :: l, s, hall, hq => by
    have ho : op.operacao = .venda := hall op (List.mem_cons_self op l)
    have hstep : anaStep s op = { s with operacoes_processadas :=
        s.operacoes_processadas ++
          [.venda_erro op.data op.quantidade op.preco op.valor_usdt] } := by
      simp [anaStep, ho, Or.inl hq]
    rw [List.foldl_cons, hstep]
    exact foldl_anaStep_flat l _ (fun x hx => hall x (List.mem_cons_of_mem op hx)) hq

/-! # Claim theorems -/

/-- C2: replaying Scenario A — `[BUY USDT 1000, BUY BTC amount=500 qty=0.01,
SELL BTC amount=600 qty=0.01]` — through the Ledger Replayer and the Position
Accountant for BTC ends with cash balance 1100, BTC quantity 0 and realized
profit 100. -/
theorem scenarioA_replay :
    (calcular_saldo_usdt opsScenarioA).saldo_atual = 1100 ∧
    (analisar_moeda (opsFor "BTC" opsScenarioA) 0).quantidade_final = 0 ∧
    (analisar_moeda (opsFor "BTC" opsScenarioA) 0).lucro_realizado = 100 := by
  refine ⟨?_, ?_, ?_⟩ <;>
    norm_num +decide [calcular_saldo_usdt, sortOps, opLe, saldoStep, opsScenarioA,
      analisar_moeda, anaStep, anaInit, opsFor, dustQtd, List.filter]

/-- C3: the Ledger Replayer processes the timestamp-sorted transactions by
exactly the four specified rules (deposit, withdrawal, asset-tagged buy-debit
and sell-credit entries), the final balance is the unclamped signed sum of all
amounts, and it can end negative. -/
theorem ledger_rules :
    (∀ (s : SaldoState) (op : Op), saldoStep s op = ledgerRuleSpec s op) ∧
    (∀ ops : List Op, calcular_saldo_usdt (sortOps ops) = calcular_saldo_usdt ops) ∧
    (∀ ops : List Op, (calcular_saldo_usdt ops).saldo_atual = opDeltaSum ops) ∧
    (calcular_saldo_usdt [⟨0, "USDT", .venda, 5, 1, 5⟩]).saldo_atual = -5 := by
  refine ⟨fun s op => ?_, fun ops => ?_, fun ops => ?_, ?_⟩
  · by_cases h : op.moeda = "USDT" <;> rcases ho : op.operacao <;>
      simp [saldoStep, ledgerRuleSpec, h, ho]
  · have hs : sortOps (sortOps ops) = sortOps ops := (sortOps_sorted ops).insertionSort_eq
    simp only [calcular_saldo_usdt]
    rw [show sortOps (sortOps ops) = sortOps ops from hs]
  · have := foldl_saldoStep_saldo (sortOps ops) ⟨0, []⟩
    simpa [calcular_saldo_usdt, opDeltaSum_of_perm (sortOps_perm ops)] using this
  · norm_num +decide [calcular_saldo_usdt, sortOps, opLe, saldoStep]

/-- C10: the movement history is internally consistent: starting from 0
each entry's `saldo_apos` is the previous one adjusted by the entry's signed
magnitude, and the returned `saldo_atual` is the last entry's `saldo_apos`
(0 for an empty history). -/
theorem saldo_historico_consistente (ops : List Op) :
    histConsistente 0 (calcular_saldo_usdt ops).historico ∧
    (calcular_saldo_usdt ops).saldo_atual =
      lastFrom 0 (calcular_saldo_usdt ops).historico := by
  have h := foldl_saldoStep_consistente (sortOps ops) ⟨0, []⟩ trivial rfl
  simpa [calcular_saldo_usdt] using h

/-- C4: a sell reaching the accountant with non-positive quantity or
non-positive average cost is recorded as an error entry and leaves the
quantity, cost basis, realized profit and average cost unchanged; in
particular a sell-only sequence (no prior buy) leaves the position at
zero throughout. -/
theorem venda_sem_posicao :
    (∀ (s : AnaState) (op : Op), op.operacao = .venda →
      s.quantidade_total ≤ 0 ∨ s.pmc ≤ 0 →
      anaStep s op = { s with operacoes_processadas :=
        s.operacoes_processadas ++
          [.venda_erro op.data op.quantidade op.preco op.valor_usdt] }) ∧
    (∀ ops : List Op, (∀ op ∈ ops, op.operacao = .venda) →
      (ops.foldl anaStep anaInit).custo_total = 0 ∧
        (ops.foldl anaStep anaInit).quantidade_total = 0 ∧
        (ops.foldl anaStep anaInit).lucro_realizado = 0) := by
  constructor
  · intro s op ho hc
    simp [anaStep, ho, hc]
  · intro ops hall
    have h := foldl_anaStep_flat ops anaInit hall (le_refl 0)
    exact ⟨h.1, h.2.1, h.2.2.1⟩

/-- C4 witness: the first sell of `opsTieSellBuy` meets the empty position
and is recorded as an error with no state change, and a pure sell list
keeps the position at zero. -/
theorem venda_sem_posicao_witness :
    anaStep anaInit ⟨5, "BTC", .venda, 600, 60000, 1/100⟩ =
      { anaInit with operacoes_processadas := [.venda_erro 5 (1/100) 60000 600] } ∧
    ([⟨5, "BTC", .venda, 600, 60000, 1/100⟩].foldl anaStep anaInit).custo_total = 0 ∧
    ([⟨5, "BTC", .venda, 600, 60000, 1/100⟩].foldl anaStep anaInit).quantidade_total = 0 ∧
    ([⟨5, "BTC", .venda, 600, 60000, 1/100⟩].foldl anaStep anaInit).lucro_realizado = 0 := by
  refine ⟨?_, venda_sem_posicao.2 _ ?_⟩
  · have h := venda_sem_posicao.1 anaInit ⟨5, "BTC", .venda, 600, 60000, 1/100⟩ rfl
      (Or.inl (le_refl 0))
    simpa [anaInit] using h
  · intro op hop
    simp only [List.mem_singleton] at hop
    subst hop
    rfl

end PortfolioDCA

namespace PortfolioDCA

/-! ## Buys-only folds (for the weighted-average-cost invariant) -/

theorem foldl_anaStep_compra :
    ∀ (l : List Op) (s : AnaState), (∀ op ∈ l, op.operacao = .compra) →
      (l.foldl anaStep s).custo_total = s.custo_total + (l.map Op.valor_usdt).sum ∧
        (l.foldl anaStep s).quantidade_total =
          s.quantidade_total + (l.map Op.quantidade).sum
  | [], s, _ => by simp
  | op :: l, s, hall => by
    have ho : op.operacao = .compra := hall op (List.mem_cons_self op l)
    have ih := foldl_anaStep_compra l (anaStep s op)
      (fun x hx => hall x (List.mem_cons_of_mem op hx))
    simp only [List.foldl_cons, List.map_cons, List.sum_cons] at ih ⊢
    rw [ih.1, ih.2]
    constructor <;> simp [anaStep, ho] <;> ring

theorem foldl_anaStep_compra_pmc :
    ∀ (l : List Op) (s : AnaState), l ≠ [] → (∀ op ∈ l, op.operacao = .compra) →
      (l.foldl anaStep s).pmc =
        if 0 < (l.foldl anaStep s).quantidade_total then
          (l.foldl anaStep s).custo_total / (l.foldl anaStep s).quantidade_total
        else 0
  | [], _, hne, _ => absurd rfl hne
  | [op], s, _, hall => by
    have ho : op.operacao = .compra := hall op (List.mem_cons_self op [])
    simp [anaStep, ho]
  | op :: op' :: l, s, _, hall => by
    have ih := foldl_anaStep_compra_pmc (op' :: l) (anaStep s op) (by simp)
      (fun x hx => hall x (List.mem_cons_of_mem op hx))
    simpa using ih

/-- C8: after a non-empty buys-only sequence the weighted-average cost in the
final snapshot is exactly the total amount spent over the total quantity
acquired. -/
theorem wac_of_buys (ops : List Op) (p : ℚ) (hne : ops ≠ [])
    (hall : ∀ op ∈ ops, op.operacao = .compra)
    (hpos : ∀ op ∈ ops, 0 < op.quantidade) :
    (analisar_moeda ops p).pmc_final =
      (ops.map Op.valor_usdt).sum / (ops.map Op.quantidade).sum := by
  have h := foldl_anaStep_compra ops anaInit hall
  have hq : 0 < (ops.map Op.quantidade).sum := by
    refine List.sum_pos _ (fun x hx => ?_) (by simpa using hne)
    obtain ⟨op, hop, rfl⟩ := List.mem_map.mp hx
    exact hpos op hop
  have hpmc := foldl_anaStep_compra_pmc ops anaInit hne hall
  show (ops.foldl anaStep anaInit).pmc = _
  rw [hpmc, h.1, h.2]
  simp only [anaInit, zero_add]
  exact if_pos hq

/-- C8 witness: Scenario B — two buys of 0.01 BTC for 300 USDT each — has
weighted-average cost 600 / 0.02 = 30000 exactly. -/
theorem wac_of_buys_witness :
    (analisar_moeda opsScenarioB 0).pmc_final =
      (opsScenarioB.map Op.valor_usdt).sum / (opsScenarioB.map Op.quantidade).sum :=
  wac_of_buys opsScenarioB 0 (by decide)
    (by intro op hop; fin_cases hop <;> rfl)
    (by intro op hop; fin_cases hop <;> norm_num [opsScenarioB])

/-! ## Non-negative quantity under no-oversell (C9) -/

theorem noOversell_take :
    ∀ (l : List Op) (s : AnaState) (n : ℕ), noOversell s l → noOversell s (l.take n)
  | [], _, n, _ => by simp [noOversell]
  | _ :: _, _, 0, _ => trivial
  | op :: l, s, n + 1, h => ⟨h.1, noOversell_take l (anaStep s op) n h.2⟩

theorem foldl_anaStep_nonneg :
    ∀ (l : List Op) (s : AnaState), 0 ≤ s.quantidade_total →
      (∀ op ∈ l, 0 ≤ op.quantidade) → noOversell s l →
      0 ≤ (l.foldl anaStep s).quantidade_total
  | [], _, hs, _, _ => hs
  | op :: l, s, hs, hq, hno => by
    have hrest : ∀ x ∈ l, 0 ≤ x.quantidade :=
      fun x hx => hq x (List.mem_cons_of_mem op hx)
    refine foldl_anaStep_nonneg l (anaStep s op) ?_ hrest hno.2
    rcases ho : op.operacao with _ | _
    · have : 0 ≤ op.quantidade := hq op (List.mem_cons_self op l)
      simp only [anaStep, ho]
      positivity
    · by_cases hc : s.quantidade_total ≤ 0 ∨ s.pmc ≤ 0
      · simpa [anaStep, ho, hc] using hs
      · have hc' := hc
        push_neg at hc'
        have hle := hno.1 ho hc'.1 hc'.2
        simp only [anaStep, ho, if_neg hc]
        exact sub_nonneg.mpr hle

/-- C9 amended: the running quantity stays non-negative after each
transaction, and in the final snapshot, provided quantities are non-negative
and no executed sell exceeds the quantity then held; without that proviso the
accountant lets an oversell drive the quantity negative. -/
theorem quantidade_nonneg (ops : List Op) (p : ℚ)
    (hq : ∀ op ∈ ops, 0 ≤ op.quantidade) (hno : noOversell anaInit ops) :
    (∀ n : ℕ, 0 ≤ ((ops.take n).foldl anaStep anaInit).quantidade_total) ∧
    0 ≤ (analisar_moeda ops p).quantidade_final := by
  constructor
  · intro n
    exact foldl_anaStep_nonneg (ops.take n) anaInit (le_refl 0)
      (fun x hx => hq x (List.take_subset n ops hx)) (noOversell_take ops anaInit n hno)
  · exact foldl_anaStep_nonneg ops anaInit (le_refl 0) hq hno

/-- C9 counterexample: a buy of 1 BTC followed by a sell of 5 BTC leaves the
snapshot's final quantity at −4 < 0. -/
theorem quantidade_negativa :
    (analisar_moeda opsOversell 0).quantidade_final = -4 ∧
    (analisar_moeda opsOversell 0).quantidade_final < 0 := by
  constructor <;>
    norm_num +decide [analisar_moeda, anaStep, anaInit, opsOversell, dustQtd]

/-- C9 witness: a buy of 1 BTC then a full sell of 1 BTC respects the
no-oversell proviso and keeps the quantity at 0 or more throughout. -/
theorem quantidade_nonneg_witness :
    (∀ n : ℕ, 0 ≤ ((opsBuySell.take n).foldl anaStep anaInit).quantidade_total) ∧
    0 ≤ (analisar_moeda opsBuySell 0).quantidade_final := by
  refine quantidade_nonneg opsBuySell 0 ?_ ?_
  · intro op hop; fin_cases hop <;> norm_num [opsBuySell]
  · refine ⟨by simp [opsBuySell], ?_, trivial⟩
    intro _ _ _
    norm_num +decide [opsBuySell, anaStep, anaInit]

end PortfolioDCA

namespace PortfolioDCA

/-! ## Missing price (C1) -/

/-- C1 amended: with no price entry the price used is 0, so the snapshot's
market value is 0 and its unrealized profit is the negation of its reported
cost basis (hence 0 only when the position is at or below dust), while cost
basis and realized profit are exactly those computed at any other price. -/
theorem preco_ausente (ops : List Op) (precos : String → Option ℚ) (m : String) (p : ℚ)
    (hm : precos m = none) :
    (analisar_moeda ops ((precos m).getD 0)).valor_atual_posicao = 0 ∧
    (analisar_moeda ops ((precos m).getD 0)).lucro_nao_realizado =
      -(analisar_moeda ops ((precos m).getD 0)).custo_posicao_final ∧
    (analisar_moeda ops ((precos m).getD 0)).custo_posicao_final =
      (analisar_moeda ops p).custo_posicao_final ∧
    (analisar_moeda ops ((precos m).getD 0)).lucro_realizado =
      (analisar_moeda ops p).lucro_realizado := by
  rw [hm]
  refine ⟨?_, ?_, rfl, rfl⟩
  · simp [analisar_moeda]
  · show (if dustQtd < (ops.foldl anaStep anaInit).quantidade_total then
        (if (0:ℚ) < 0 then (ops.foldl anaStep anaInit).quantidade_total * 0 else 0) -
          (if dustQtd < (ops.foldl anaStep anaInit).quantidade_total then
            (ops.foldl anaStep anaInit).custo_total else 0)
      else 0) = -(if dustQtd < (ops.foldl anaStep anaInit).quantidade_total then
        (ops.foldl anaStep anaInit).custo_total else 0)
    rw [if_neg (lt_irrefl (0:ℚ))]
    split_ifs with h
    · ring
    · ring

/-- C1 counterexample: 2 ETH bought for 1000 with no price entry — market
value is 0 and cost basis 1000 as claimed, but the unrealized profit is
−1000, not 0. -/
theorem preco_ausente_lucro_negativo :
    (analisar_moeda opsEth ((noPrecos "ETH").getD 0)).valor_atual_posicao = 0 ∧
    (analisar_moeda opsEth ((noPrecos "ETH").getD 0)).custo_posicao_final = 1000 ∧
    (analisar_moeda opsEth ((noPrecos "ETH").getD 0)).lucro_realizado = 0 ∧
    (analisar_moeda opsEth ((noPrecos "ETH").getD 0)).lucro_nao_realizado = -1000 ∧
    (analisar_moeda opsEth ((noPrecos "ETH").getD 0)).lucro_nao_realizado ≠ 0 := by
  refine ⟨?_, ?_, ?_, ?_, ?_⟩ <;>
    norm_num +decide [analisar_moeda, anaStep, anaInit, opsEth, noPrecos, dustQtd]

/-- C1 witness: the amended statement instantiated at the 2-ETH position
with an empty price source. -/
theorem preco_ausente_witness :
    (analisar_moeda opsEth ((noPrecos "ETH").getD 0)).valor_atual_posicao = 0 ∧
    (analisar_moeda opsEth ((noPrecos "ETH").getD 0)).lucro_nao_realizado =
      -(analisar_moeda opsEth ((noPrecos "ETH").getD 0)).custo_posicao_final ∧
    (analisar_moeda opsEth ((noPrecos "ETH").getD 0)).custo_posicao_final =
      (analisar_moeda opsEth 7).custo_posicao_final ∧
    (analisar_moeda opsEth ((noPrecos "ETH").getD 0)).lucro_realizado =
      (analisar_moeda opsEth 7).lucro_realizado :=
  preco_ausente opsEth noPrecos "ETH" 7 rfl

/-! ## Permutation invariance after sorting (C7) -/

/-- C7 amended: when all timestamps are distinct, any two input orders of the
same transactions replay to the same ledger result and, for every asset and
price, the same position snapshot; with tied timestamps the stable sort keeps
the input order, and the claim fails. -/
theorem replay_perm_invariant (ops ops' : List Op) (h : ops.Perm ops')
    (hnd : (ops.map Op.data).Nodup) :
    calcular_saldo_usdt ops = calcular_saldo_usdt ops' ∧
    ∀ (m : String) (p : ℚ),
      analisar_moeda (opsFor m ops) p = analisar_moeda (opsFor m ops') p := by
  have hs := sortOps_eq_of_perm h hnd
  exact ⟨by rw [calcular_saldo_usdt, calcular_saldo_usdt, hs],
    fun m p => by rw [opsFor, opsFor, hs]⟩

/-- C7 counterexample: two permutations of the same two BTC transactions
carrying one tied timestamp replay to different ledger histories and
different position snapshots. -/
theorem replay_perm_tie :
    opsTieBuySell.Perm opsTieSellBuy ∧
    calcular_saldo_usdt opsTieBuySell ≠ calcular_saldo_usdt opsTieSellBuy ∧
    analisar_moeda (opsFor "BTC" opsTieBuySell) 0 ≠
      analisar_moeda (opsFor "BTC" opsTieSellBuy) 0 := by
  refine ⟨List.Perm.swap _ _ _, ?_, ?_⟩ <;>
    norm_num +decide [calcular_saldo_usdt, analisar_moeda, anaStep, anaInit, saldoStep,
      sortOps, opLe, opsFor, opsTieBuySell, opsTieSellBuy, dustQtd, List.filter,
      SaldoInfo.mk.injEq, Analise.mk.injEq]

/-- C7 witness: the amended statement instantiated at a buy/sell pair with
distinct timestamps, in both input orders. -/
theorem replay_perm_invariant_witness :
    calcular_saldo_usdt opsBuySell = calcular_saldo_usdt opsSellBuy ∧
    ∀ (m : String) (p : ℚ),
      analisar_moeda (opsFor m opsBuySell) p = analisar_moeda (opsFor m opsSellBuy) p :=
  replay_perm_invariant opsBuySell opsSellBuy (List.Perm.swap _ _ _) (by decide)

/-! ## The unvalidated `Preco` field (C5) -/

/-- C5: the loader keeps a row whose `Preco` cell is empty (it validates
every required field except `Preco`), yet that cell holds no number, so
`Decimal(str(op['Preco']))` in `_analisar_moeda` raises on it: a loaded
record can make the accounting core terminate abnormally. -/
theorem carregar_mantem_preco_invalido :
    carregar_operacoes [badPrecoRow] = [badPrecoRow] ∧
    badPrecoRow.Preco = "" ∧
    parseNum badPrecoRow.Preco = none := by
  refine ⟨?_, rfl, rfl⟩
  decide

end PortfolioDCA

namespace PortfolioDCA

/-! ## Allocation percentages (C6) -/

theorem cryptoPass_snd_eq (ops : List Op) (precos : String → Option ℚ) :
    (cryptoPass ops precos).2 = ((cryptoPass ops precos).1.map (fun e => e.2.1)).sum := by
  have key : ∀ (ms : List String) (acc : List (String × ℚ × ℚ) × ℚ),
      acc.2 = (acc.1.map (fun e => e.2.1)).sum →
      (ms.foldl (fun (acc : List (String × ℚ × ℚ) × ℚ) m =>
        let a := analisar_moeda (opsFor m ops) ((precos m).getD 0)
        if 1/100 < a.valor_atual_posicao then
          (acc.1 ++ [(m, a.valor_atual_posicao, a.quantidade_final)],
           acc.2 + a.valor_atual_posicao)
        else acc) acc).2 =
      (((ms.foldl (fun (acc : List (String × ℚ × ℚ) × ℚ) m =>
        let a := analisar_moeda (opsFor m ops) ((precos m).getD 0)
        if 1/100 < a.valor_atual_posicao then
          (acc.1 ++ [(m, a.valor_atual_posicao, a.quantidade_final)],
           acc.2 + a.valor_atual_posicao)
        else acc) acc).1).map (fun e => e.2.1)).sum := by
    intro ms
    induction ms with
    | nil => intro acc h; exact h
    | cons m ms ih =>
      intro acc h
      simp only [List.foldl_cons]
      apply ih
      dsimp only
      split_ifs with hc
      · simp [h]
      · exact h
  exact key (assetOrder ops) ([], 0) (by simp)

theorem sum_percent (T : ℚ) :
    ∀ l : List (String × ℚ × ℚ),
      ((l.map (fun e => (e.1,
          (⟨e.2.1, e.2.2, if 0 < T then e.2.1 / T * 100 else 0⟩ : DistEntry)))).map
        (fun e => e.2.percentual)).sum =
      if 0 < T then ((l.map fun e => e.2.1).sum) / T * 100 else 0
  | [] => by
    split_ifs <;> simp
  | e :: l => by
    have ih := sum_percent T l
    simp only [List.map_cons, List.sum_cons, ih]
    split_ifs with h
    · rw [add_div, add_mul]
    · simp

/-- C6 amended: each reported percentage is the asset's value over the
portfolio total (crypto total plus cash) times 100 when that total is
positive, and 0 otherwise; the percentages sum to exactly 100 when the total
is positive and the cash balance is either 0 or above the dust threshold —
cash at or below the threshold (including a negative balance) stays in the
denominator without an entry of its own, and the sum then misses 100. -/
theorem distribuicao_percentuais (ops : List Op) (precos : String → Option ℚ) :
    (∀ e ∈ (calcular_distribuicao_portfolio ops precos).distribuicao,
      e.2.percentual = if 0 < portfolioTotal ops precos then
        e.2.valor_atual / portfolioTotal ops precos * 100 else 0) ∧
    (((calcular_saldo_usdt ops).saldo_atual = 0 ∨
        1/100 < (calcular_saldo_usdt ops).saldo_atual) →
      0 < portfolioTotal ops precos →
      ((calcular_distribuicao_portfolio ops precos).distribuicao.map
        (fun e => e.2.percentual)).sum = 100) := by
  constructor
  · by_cases hne : ops = []
    · subst hne
      intro e he
      simp [calcular_distribuicao_portfolio] at he
    · intro e he
      simp only [calcular_distribuicao_portfolio, if_neg hne] at he
      obtain ⟨pre, hpre, rfl⟩ := List.mem_map.mp he
      rfl
  · intro hsaldo htot
    by_cases hne : ops = []
    · refine absurd htot ?_
      subst hne
      norm_num [portfolioTotal, cryptoPass, assetOrder, sortOps, calcular_saldo_usdt]
    · have hT : portfolioTotal ops precos ≠ 0 := ne_of_gt htot
      have hPT : (cryptoPass ops precos).2 + (calcular_saldo_usdt ops).saldo_atual =
          portfolioTotal ops precos := rfl
      simp only [calcular_distribuicao_portfolio, if_neg hne]
      rw [hPT, sum_percent (portfolioTotal ops precos), if_pos htot, List.map_append,
        List.sum_append, ← cryptoPass_snd_eq]
      rcases hsaldo with h0 | hdust
      · have hopt : (if 1/100 < (calcular_saldo_usdt ops).saldo_atual then
            [("USDT", (calcular_saldo_usdt ops).saldo_atual,
              (calcular_saldo_usdt ops).saldo_atual)]
          else ([] : List (String × ℚ × ℚ))) = [] := by
          rw [h0]; norm_num
        have hTc : portfolioTotal ops precos = (cryptoPass ops precos).2 := by
          rw [← hPT, h0, add_zero]
        rw [hopt, List.map_nil, List.sum_nil, add_zero, hTc,
          div_self (hTc ▸ hT), one_mul]
      · rw [if_pos hdust]
        simp only [List.map_cons, List.map_nil, List.sum_cons, List.sum_nil, add_zero]
        rw [hPT, div_self hT, one_mul]

/-- C6 counterexample: a single BTC buy with no deposit leaves cash at −50;
with BTC priced at 100 the portfolio total is 50 > 0, yet the one reported
percentage is 200, so the percentages sum to 200, not 100. -/
theorem distribuicao_soma_200 :
    0 < portfolioTotal opsNegCash precosBtc100 ∧
    ((calcular_distribuicao_portfolio opsNegCash precosBtc100).distribuicao.map
      (fun e => e.2.percentual)).sum = 200 := by
  constructor <;>
    norm_num +decide [calcular_distribuicao_portfolio, cryptoPass, portfolioTotal,
      assetOrder, opsFor, sortOps, opLe, calcular_saldo_usdt, saldoStep, analisar_moeda,
      anaStep, anaInit, dustQtd, opsNegCash, precosBtc100, List.filter]

/-- C6 witness: a single 1000 USDT deposit gives a portfolio of cash only,
with one entry at 100 percent. -/
theorem distribuicao_percentuais_witness :
    ((calcular_distribuicao_portfolio opsDeposit noPrecos).distribuicao.map
      (fun e => e.2.percentual)).sum = 100 :=
  (distribuicao_percentuais opsDeposit noPrecos).2
    (Or.inr (by norm_num +decide [calcular_saldo_usdt, sortOps, opLe, saldoStep,
      opsDeposit]))
    (by norm_num +decide [portfolioTotal, cryptoPass, assetOrder, sortOps, opLe,
      calcular_saldo_usdt, saldoStep, opsDeposit, noPrecos])

end PortfolioDCA
